import Mathlib

/-!
Verification of the verse navigation and addressing subsystem of the
GreekNTapp repository (src/data_structures.py), together with the
user-translation store.

The Python source is shallowly embedded: the canonical book table
`NEW_TESTAMENT`, the lookup dictionaries, `get_book_data`, the extent
scanners `get_max_chapter` / `get_max_verse`, the navigation function
`navigate_verse`, and the user-translation persistence core
(`save_user_translation` / `load_user_translation`).

The external verse data store (`morphgnt_rows` from the pysblgnt
package) is modelled as a parameter `store : Store`, mapping a book
number to the list of its (chapter, verse) records, in unspecified
order, exactly as the Python code consumes it.
-/

set_option maxRecDepth 4000
set_option maxHeartbeats 1000000

/-- A Python value that is either an int or a str.  Needed because the
lookup dictionaries in the source put an `int` position in slot 0 for
string keys but a `str` full name in slot 0 for integer keys. -/
inductive PyVal where
  | vInt (n : Nat)
  | vStr (s : String)
deriving DecidableEq

/-- One row of the `NEW_TESTAMENT` table: position, full (short) name,
abbreviation, long title, KJV-style abbreviation — tuple slots 0..4 of
the Python source. -/
structure BookEntry where
  position : Nat
  fullName : String
  abbrevName : String
  title : String
  kjvAbbrev : String
deriving DecidableEq

/-- The canonical list of New Testament books, verbatim from the source. -/
def NEW_TESTAMENT : List BookEntry := [
  ⟨1, "Matthew",    "Mt", "The Gospel According to Matthew", "Matt"⟩,
  ⟨2, "Mark",       "Mk", "The Gospel According to Mark", "Mark"⟩,
  ⟨3, "Luke",       "Lk", "The Gospel According to Luke", "Luke"⟩,
  ⟨4, "John",       "Jn", "The Gospel According to John", "John"⟩,
  ⟨5, "Acts",      "Acts", "The Acts of the Apostles", "Acts"⟩,
  ⟨6, "Romans",    "Rom", "The Letter to the Romans", "Rom"⟩,
  ⟨7, "1 Corinthians", "1Co", "The First Letter to the Corinthians", "1Cor"⟩,
  ⟨8, "2 Corinthians", "2Co", "The Second Letter to the Corinthians", "2Cor"⟩,
  ⟨9, "Galatians",  "Gal", "The Letter to the Galatians", "Gal"⟩,
  ⟨10, "Ephesians",  "Eph", "The Letter to the Ephesians", "Eph"⟩,
  ⟨11, "Philippians", "Phil", "The Letter to the Philippians", "Phil"⟩,
  ⟨12, "Colossians", "Col", "The Letter to the Colossians", "Col"⟩,
  ⟨13, "1 Thessalonians", "1Th", "The First Letter to the Thessalonians", "1Thess"⟩,
  ⟨14, "2 Thessalonians", "2Th", "The Second Letter to the Thessalonians", "2Thess"⟩,
  ⟨15, "1 Timothy",  "1Ti", "The First Letter to Timothy", "1Tim"⟩,
  ⟨16, "2 Timothy",  "2Ti", "The Second Letter to Timothy", "2Tim"⟩,
  ⟨17, "Titus",      "Tit", "The Letter to Titus", "Titus"⟩,
  ⟨18, "Philemon",   "Phm", "The Letter to Philemon", "Philem"⟩,
  ⟨19, "Hebrews",    "Heb", "The Letter to the Hebrews", "Heb"⟩,
  ⟨20, "James",      "Jas", "The Letter of James", "Jas"⟩,
  ⟨21, "1 Peter",    "1Pe", "The First Letter of Peter", "1Pet"⟩,
  ⟨22, "2 Peter",    "2Pe", "The Second Letter of Peter", "2Pet"⟩,
  ⟨23, "1 John",     "1Jn", "The First Letter of John", "1John"⟩,
  ⟨24, "2 John",     "2Jn", "The Second Letter of John", "2John"⟩,
  ⟨25, "3 John",     "3Jn", "The Third Letter of John", "3John"⟩,
  ⟨26, "Jude",      "Jude", "The Letter of Jude", "Jude"⟩,
  ⟨27, "Revelation", "Rev", "The Revelation to John", "Rev"⟩]

/-- Placeholder entry used only as the default of `List.getD`; never
reached on the guarded paths of the navigation code. -/
def noBook : BookEntry := ⟨0, "", "", "", ""⟩

/-- The book at 0-based offset `i` of the canonical order
(`NEW_TESTAMENT[i]` in the source). -/
def bk (i : Nat) : BookEntry := NEW_TESTAMENT.getD i noBook

/-- `SHORT_NAME_TO_DATA[s]`: full name key, value `(position, abbrev, kjvAbbrev)`. -/
def SHORT_NAME_TO_DATA (s : String) : Option (Nat × String × String) :=
  (NEW_TESTAMENT.find? (fun b => b.fullName == s)).map
    (fun b => (b.position, b.abbrevName, b.kjvAbbrev))

/-- `NUMBER_TO_DATA[n]`: position key, value `(fullName, abbrev, kjvAbbrev)`. -/
def NUMBER_TO_DATA (n : Nat) : Option (String × String × String) :=
  (NEW_TESTAMENT.find? (fun b => b.position == n)).map
    (fun b => (b.fullName, b.abbrevName, b.kjvAbbrev))

/-- `ABBREV_TO_DATA[s]`: abbreviation key, value `(position, fullName, kjvAbbrev)`. -/
def ABBREV_TO_DATA (s : String) : Option (Nat × String × String) :=
  (NEW_TESTAMENT.find? (fun b => b.abbrevName == s)).map
    (fun b => (b.position, b.fullName, b.kjvAbbrev))

/-- `KJV_ABBREV_TO_DATA[s]`: KJV abbreviation key, value `(position, fullName, abbrev)`. -/
def KJV_ABBREV_TO_DATA (s : String) : Option (Nat × String × String) :=
  (NEW_TESTAMENT.find? (fun b => b.kjvAbbrev == s)).map
    (fun b => (b.position, b.fullName, b.abbrevName))

/-- A book identifier as accepted by `get_book_data`: a Python int or str. -/
inductive Identifier where
  | num (n : Nat)
  | str (s : String)
deriving DecidableEq

/-- `get_book_data`: resolve an identifier through the four dictionaries in
source order (int → NUMBER_TO_DATA; str → full name, then abbreviation, then
KJV abbreviation).  The first tuple slot of the result is an int position for
string keys but the full-name string for integer keys, as in the source. -/
def get_book_data : Identifier → Option (PyVal × String × String)
  | Identifier.num n =>
      (NUMBER_TO_DATA n).map (fun d => (PyVal.vStr d.1, d.2.1, d.2.2))
  | Identifier.str s =>
      match SHORT_NAME_TO_DATA s with
      | some d => some (PyVal.vInt d.1, d.2.1, d.2.2)
      | none =>
        match ABBREV_TO_DATA s with
        | some d => some (PyVal.vInt d.1, d.2.1, d.2.2)
        | none =>
          match KJV_ABBREV_TO_DATA s with
          | some d => some (PyVal.vInt d.1, d.2.1, d.2.2)
          | none => none

/-- The external verse data store: for a book number, the list of
(chapter, verse) pairs of its verse records (`morphgnt_rows`), in
unspecified order. -/
abbrev Store := Nat → List (Nat × Nat)

/-- `get_max_chapter`: linear scan keeping the largest chapter seen, 0 start. -/
def get_max_chapter (store : Store) (book_num : Nat) : Nat :=
  (store book_num).foldl (fun mx r => if r.1 > mx then r.1 else mx) 0

/-- `get_max_verse`: linear scan keeping the largest verse seen among
records of the given chapter, 0 start. -/
def get_max_verse (store : Store) (book_num : Nat) (chapter : Nat) : Nat :=
  (store book_num).foldl (fun mx r => if r.1 = chapter ∧ r.2 > mx then r.2 else mx) 0

/-- `NUMBER_TO_DATA[book_num][0]`: the canonical full name of a book
number.  On every reachable call site the key is present; the `""`
default is never hit there. -/
def bookName (book_num : Nat) : String :=
  ((NUMBER_TO_DATA book_num).map (fun d => d.1)).getD ""

/-- The `for idx, book in enumerate(NEW_TESTAMENT)` search loop of
`navigate_verse`, comparing `book[0] == book_num`. -/
def find_idx_loop (book_num : Nat) : Nat → List BookEntry → Option Nat
  | _, [] => none
  | i, b :: rest =>
      if b.position == book_num then some i else find_idx_loop book_num (i + 1) rest

/-- Index of the book with the given number in `NEW_TESTAMENT` (the loop
starting at index 0). -/
def find_book_idx (book_num : Nat) : Option Nat :=
  find_idx_loop book_num 0 NEW_TESTAMENT

/-- The body of `navigate_verse` after book resolution: dispatch on the
mode string and apply the boundary rules, verbatim from the source. -/
def navigate_core (store : Store) (book_num book_idx current_chapter current_verse : Nat)
    (mode : String) : Except String (String × Nat × Nat) :=
  if mode = "next_verse" then
    if current_verse < get_max_verse store book_num current_chapter then
      Except.ok (bookName book_num, current_chapter, current_verse + 1)
    else if current_chapter < get_max_chapter store book_num then
      Except.ok (bookName book_num, current_chapter + 1, 1)
    else if book_idx < NEW_TESTAMENT.length - 1 then
      Except.ok ((bk (book_idx + 1)).fullName, 1, 1)
    else
      Except.ok (bookName book_num, current_chapter, current_verse)
  else if mode = "previous_verse" then
    if current_verse > 1 then
      Except.ok (bookName book_num, current_chapter, current_verse - 1)
    else if current_chapter > 1 then
      Except.ok (bookName book_num, current_chapter - 1,
        get_max_verse store book_num (current_chapter - 1))
    else if book_idx > 0 then
      Except.ok ((bk (book_idx - 1)).fullName,
        get_max_chapter store (bk (book_idx - 1)).position,
        get_max_verse store (bk (book_idx - 1)).position
          (get_max_chapter store (bk (book_idx - 1)).position))
    else
      Except.ok (bookName book_num, current_chapter, current_verse)
  else if mode = "start_of_chapter" then
    if current_verse = 1 then
      if current_chapter > 1 then
        Except.ok (bookName book_num, current_chapter - 1, 1)
      else if book_idx > 0 then
        Except.ok ((bk (book_idx - 1)).fullName,
          get_max_chapter store (bk (book_idx - 1)).position, 1)
      else
        Except.ok (bookName book_num, current_chapter, current_verse)
    else
      Except.ok (bookName book_num, current_chapter, 1)
  else if mode = "start_of_next_chapter" then
    if current_chapter < get_max_chapter store book_num then
      Except.ok (bookName book_num, current_chapter + 1, 1)
    else if book_idx < NEW_TESTAMENT.length - 1 then
      Except.ok ((bk (book_idx + 1)).fullName, 1, 1)
    else
      Except.ok (bookName book_num, current_chapter, current_verse)
  else Except.error ("Unknown navigation mode: " ++ mode)

/-- `navigate_verse`: resolve the book, find its index in the canonical
list, then apply the mode rules.  When `current_book` is an integer,
`book_data[0]` is the full-name *string*, and the Python index loop
compares it with `==` against the integer `book[0]` — always `False` in
Python — so the loop finds nothing; that branch is therefore embedded
directly as the "Book not found in NEW_TESTAMENT" error. -/
def navigate_verse (store : Store) (current_book : Identifier)
    (current_chapter current_verse : Nat) (mode : String) :
    Except String (String × Nat × Nat) :=
  match get_book_data current_book with
  | none => Except.error "Unknown book"
  | some book_data =>
    match book_data.1 with
    | PyVal.vStr _ => Except.error "Book not found in NEW_TESTAMENT"
    | PyVal.vInt book_num =>
      match find_book_idx book_num with
      | none => Except.error "Book not found in NEW_TESTAMENT"
      | some book_idx =>
          navigate_core store book_num book_idx current_chapter current_verse mode

/-! ### User translation store (save_user_translation / load_user_translation)

Python dicts are modelled as association lists in insertion order:
`d[k] = v` replaces in place when the key exists and appends otherwise,
and `d.get(k)` returns the value at the key if present. -/

/-- `d.get(k)` on a Python dict. -/
def dict_get {α : Type} (m : List (String × α)) (k : String) : Option α :=
  (m.find? (fun p => p.1 == k)).map Prod.snd

/-- `d[k] = v` on a Python dict: replace the entry in place when the key
exists (Python dicts never hold a key twice), append at the end of the
insertion order otherwise. -/
def dict_set {α : Type} : List (String × α) → String → α → List (String × α)
  | [], k, v => [(k, v)]
  | p :: t, k, v => if p.1 == k then (k, v) :: t else p :: dict_set t k v

/-- The nested translations store: book → chapter (as str) → verse (as str) → text. -/
abbrev TransMap := List (String × List (String × List (String × String)))

/-- `save_user_translation` on the loaded store:
`translations.setdefault(book, {}).setdefault(str(chapter), {})[str(verse)] = translation`. -/
def save_user_translation (translations : TransMap) (book : String)
    (chapter verse : Nat) (text : String) : TransMap :=
  let chap_map := (dict_get translations book).getD []
  let verse_map := (dict_get chap_map (toString chapter)).getD []
  dict_set translations book
    (dict_set chap_map (toString chapter)
      (dict_set verse_map (toString verse) text))

/-- `load_user_translation`:
`translations.get(book, {}).get(str(chapter), {}).get(str(verse))`. -/
def load_user_translation (translations : TransMap) (book : String)
    (chapter verse : Nat) : Option String :=
  dict_get ((dict_get ((dict_get translations book).getD []) (toString chapter)).getD [])
    (toString verse)

/-- The same nested read with raw string keys, to state how entries
other than the written one are left untouched. -/
def stored_translation (translations : TransMap) (b c v : String) : Option String :=
  dict_get ((dict_get ((dict_get translations b).getD []) c).getD []) v

/-! ### Spec-side navigation rules (for the refinement claims)

These two definitions follow the wording of the specification §4.3, over
a canonical address: the book given by its 0-based offset in canonical
order, the result book as its canonical full name. -/

/-- The NEXT_VERSE rule as the specification states it: increment the
verse below the chapter's maximum; else step to the next chapter's verse
1; else to the next canonical book's 1:1; else (last verse of the last
book) stay put. -/
def spec_next_verse (store : Store) (i ch v : Nat) : String × Nat × Nat :=
  if v < get_max_verse store (bk i).position ch then ((bk i).fullName, ch, v + 1)
  else if ch < get_max_chapter store (bk i).position then ((bk i).fullName, ch + 1, 1)
  else if i + 1 < NEW_TESTAMENT.length then ((bk (i + 1)).fullName, 1, 1)
  else ((bk i).fullName, ch, v)

/-- The START_OF_CHAPTER rule as the specification states it: from verse 1
rewind further (previous chapter's verse 1, else previous book's last
chapter verse 1, else stay put); otherwise verse 1 of the same chapter. -/
def spec_start_of_chapter (store : Store) (i ch v : Nat) : String × Nat × Nat :=
  if v = 1 then
    if ch > 1 then ((bk i).fullName, ch - 1, 1)
    else if i > 0 then
      ((bk (i - 1)).fullName, get_max_chapter store (bk (i - 1)).position, 1)
    else ((bk i).fullName, ch, v)
  else ((bk i).fullName, ch, 1)

/-! ### Concrete stores used for witnesses and counterexamples -/

/-- A small concrete verse store: Matthew with chapters 1 (verses 1, 2)
and 2 (verse 1), Revelation with chapter 1 (verses 1, 2), every other
book a single chapter with a single verse. -/
def testStore : Store := fun n =>
  if n = 1 then [(1, 1), (1, 2), (2, 1)]
  else if n = 27 then [(1, 1), (1, 2)]
  else [(1, 1)]

/-- A store with no records at all: every extent scan returns 0. -/
def emptyStore : Store := fun _ => []

deriving instance DecidableEq for Except

/-! ### Facts about the canonical registry, settled by evaluation -/

theorem NEW_TESTAMENT_length : NEW_TESTAMENT.length = 27 := rfl

theorem bk_position : ∀ i : Nat, i < 27 → (bk i).position = i + 1 := by decide

theorem bk_mem : ∀ i : Nat, i < 27 → bk i ∈ NEW_TESTAMENT := by decide

theorem position_bounds : ∀ b ∈ NEW_TESTAMENT, 1 ≤ b.position ∧ b.position ≤ 27 := by
  decide

theorem bookName_eq_fullName : ∀ i : Nat, i < 27 → bookName (i + 1) = (bk i).fullName := by
  decide

theorem find_book_idx_eq : ∀ n : Nat, 1 ≤ n → n ≤ 27 → find_book_idx n = some (n - 1) := by
  decide

theorem full_name_resolves : ∀ i : Nat, i < 27 →
    get_book_data (Identifier.str (bk i).fullName) =
      some (PyVal.vInt (i + 1), (bk i).abbrevName, (bk i).kjvAbbrev) := by
  decide

theorem bookName_mem : ∀ n : Nat, 1 ≤ n → n ≤ 27 →
    ∃ b, b ∈ NEW_TESTAMENT ∧ bookName n = b.fullName := by
  decide

/-! ### Resolution lemmas for navigate_verse -/

/-- If `get_book_data` resolves an identifier to an integer position, the
position is one of the 27 canonical ones. -/
theorem get_book_data_int_bounds (id : Identifier) (n : Nat) (a k : String)
    (h : get_book_data id = some (PyVal.vInt n, a, k)) : 1 ≤ n ∧ n ≤ 27 := by
  cases id with
  | num p =>
    simp only [get_book_data] at h
    obtain ⟨d, _, hd⟩ := Option.map_eq_some'.1 h
    simp at hd
  | str s =>
    simp only [get_book_data] at h
    split at h
    case _ d hS =>
      obtain ⟨b, hfind, hb⟩ := Option.map_eq_some'.1 hS
      have hmem := List.mem_of_find?_eq_some hfind
      have : n = b.position := by
        rw [← hb] at h; simp at h; omega
      exact this ▸ position_bounds b hmem
    case _ =>
      split at h
      case _ d hA =>
        obtain ⟨b, hfind, hb⟩ := Option.map_eq_some'.1 hA
        have hmem := List.mem_of_find?_eq_some hfind
        have : n = b.position := by
          rw [← hb] at h; simp at h; omega
        exact this ▸ position_bounds b hmem
      case _ =>
        split at h
        case _ d hK =>
          obtain ⟨b, hfind, hb⟩ := Option.map_eq_some'.1 hK
          have hmem := List.mem_of_find?_eq_some hfind
          have : n = b.position := by
            rw [← hb] at h; simp at h; omega
          exact this ▸ position_bounds b hmem
        case _ => exact absurd h (by simp)

/-- Once the book resolves to position `n`, `navigate_verse` is
`navigate_core` at index `n - 1`. -/
theorem navigate_verse_eq_core (store : Store) (id : Identifier)
    (ch v n : Nat) (a k : String) (mode : String)
    (h : get_book_data id = some (PyVal.vInt n, a, k)) :
    navigate_verse store id ch v mode = navigate_core store n (n - 1) ch v mode := by
  obtain ⟨h1, h27⟩ := get_book_data_int_bounds id n a k h
  simp only [navigate_verse, h, find_book_idx_eq n h1 h27]

/-- Navigation from a canonical full name is `navigate_core` at the
book's canonical position and index. -/
theorem navigate_verse_fullName (store : Store) (i ch v : Nat) (mode : String)
    (hi : i < 27) :
    navigate_verse store (Identifier.str (bk i).fullName) ch v mode =
      navigate_core store (i + 1) i ch v mode := by
  have h := navigate_verse_eq_core store (Identifier.str (bk i).fullName) ch v (i + 1)
    (bk i).abbrevName (bk i).kjvAbbrev mode (full_name_resolves i hi)
  simpa using h

/-! ### The extent scans as maximum folds -/

theorem foldl_max_init_le (l : List Nat) : ∀ a : Nat, a ≤ l.foldl max a := by
  induction l with
  | nil => intro a; exact le_refl a
  | cons x t ih =>
    intro a
    exact le_trans (le_max_left a x) (ih (max a x))

theorem foldl_max_le_of_mem (l : List Nat) : ∀ a x : Nat, x ∈ l → x ≤ l.foldl max a := by
  induction l with
  | nil => intro a x hx; cases hx
  | cons y t ih =>
    intro a x hx
    rcases List.mem_cons.1 hx with rfl | hmem
    · exact le_trans (le_max_right a x) (foldl_max_init_le t (max a x))
    · exact ih (max a y) x hmem

theorem foldl_max_eq_init_or_mem (l : List Nat) :
    ∀ a : Nat, l.foldl max a = a ∨ l.foldl max a ∈ l := by
  induction l with
  | nil => intro a; exact Or.inl rfl
  | cons x t ih =>
    intro a
    rcases ih (max a x) with h | h
    · rcases max_cases a x with ⟨hm, _⟩ | ⟨hm, _⟩
      · exact Or.inl (by rw [List.foldl_cons, h, hm])
      · exact Or.inr (by rw [List.foldl_cons, h, hm]; exact List.mem_cons_self x t)
    · exact Or.inr (List.mem_cons_of_mem x h)

theorem foldl_max_perm {l1 l2 : List Nat} (h : l1.Perm l2) :
    ∀ a : Nat, l1.foldl max a = l2.foldl max a := by
  induction h with
  | nil => intro a; rfl
  | cons x _ ih => intro a; simp only [List.foldl_cons]; exact ih (max a x)
  | swap x y l =>
    intro a
    simp only [List.foldl_cons]
    rw [max_assoc, max_comm y x, ← max_assoc]
  | trans _ _ ih1 ih2 => intro a; rw [ih1 a, ih2 a]

/-- The chapter scan is a maximum fold over the chapter projections. -/
theorem get_max_chapter_eq_fold (store : Store) (n : Nat) :
    get_max_chapter store n = ((store n).map Prod.fst).foldl max 0 := by
  unfold get_max_chapter
  rw [List.foldl_map]
  congr 1
  funext mx r
  rcases le_or_lt r.1 mx with h | h
  · simp [not_lt.2 h, max_eq_left h]
  · simp [h, max_eq_right (le_of_lt h)]

/-- The verse scan is a maximum fold over the verse projections of the
records of the chapter. -/
theorem get_max_verse_eq_fold (store : Store) (n ch : Nat) :
    get_max_verse store n ch =
      (((store n).filter (fun r => r.1 == ch)).map Prod.snd).foldl max 0 := by
  unfold get_max_verse
  suffices h : ∀ (l : List (Nat × Nat)) (a : Nat),
      l.foldl (fun mx r => if r.1 = ch ∧ r.2 > mx then r.2 else mx) a =
        ((l.filter (fun r => r.1 == ch)).map Prod.snd).foldl max a from h (store n) 0
  intro l
  induction l with
  | nil => intro a; rfl
  | cons r t ih =>
    intro a
    by_cases hc : r.1 = ch
    · have hfil : (r :: t).filter (fun r => r.1 == ch) =
          r :: t.filter (fun r => r.1 == ch) := by
        simp [List.filter_cons, hc]
      rw [hfil, List.foldl_cons, List.map_cons, List.foldl_cons, ih]
      congr 1
      rcases le_or_lt r.2 a with h | h
      · simp [hc, not_lt.2 h, max_eq_left h]
      · simp [hc, h, max_eq_right (le_of_lt h)]
    · have hfil : (r :: t).filter (fun r => r.1 == ch) =
          t.filter (fun r => r.1 == ch) := by
        simp [List.filter_cons, hc]
      rw [hfil, List.foldl_cons, ih]
      congr 1
      simp [hc]

/-! ### Every successful navigation result names a canonical book -/

/-- Whatever branch `navigate_core` takes, the book of an `ok` result is
the full name of a registry entry. -/
theorem navigate_core_ok_book (store : Store) (n i ch v : Nat) (mode : String)
    (r : String × Nat × Nat) (h1 : 1 ≤ n) (h27 : n ≤ 27) (hi : i < 27)
    (h : navigate_core store n i ch v mode = Except.ok r) :
    ∃ b, b ∈ NEW_TESTAMENT ∧ r.1 = b.fullName := by
  obtain ⟨b0, hb0, hname⟩ := bookName_mem n h1 h27
  unfold navigate_core at h
  simp only [NEW_TESTAMENT_length] at h
  split_ifs at h <;>
    first
      | exact Except.noConfusion h
      | (obtain rfl : _ = r := Except.ok.inj h
         first
           | exact ⟨b0, hb0, hname⟩
           | exact ⟨bk (i + 1), bk_mem (i + 1) (by omega), rfl⟩
           | exact ⟨bk (i - 1), bk_mem (i - 1) (by omega), rfl⟩)

/-! ### Claim theorems -/

/-- C1: for every address whose book resolves in the registry (to
canonical position `n`), NEXT_VERSE navigation follows the specified
rule: increment the verse below `max_verse(book, chapter)`; else
`(book, chapter+1, 1)` below `max_chapter(book)`; else the next
canonical book's `(1, 1)`; else (last verse of the last book) the input
address unchanged. -/
theorem next_verse_follows_spec (store : Store) (id : Identifier) (ch v n : Nat)
    (a k : String) (h : get_book_data id = some (PyVal.vInt n, a, k)) :
    navigate_verse store id ch v "next_verse" =
      Except.ok (spec_next_verse store (n - 1) ch v) := by
  obtain ⟨h1, h27⟩ := get_book_data_int_bounds id n a k h
  rw [navigate_verse_eq_core store id ch v n a k "next_verse" h]
  have hpos : (bk (n - 1)).position = n := by
    have := bk_position (n - 1) (by omega); omega
  have hbn : bookName n = (bk (n - 1)).fullName := by
    have := bookName_eq_fullName (n - 1) (by omega)
    rwa [Nat.sub_add_cancel h1] at this
  unfold navigate_core spec_next_verse
  rw [hpos, hbn]
  simp only [NEW_TESTAMENT_length, String.reduceEq, if_true, if_false]
  split_ifs <;> first | rfl | omega

/-- Witness for C1 at the concrete scenario of the specification:
`(Matthew, 1, max_verse(Matthew, 1))` with NEXT_VERSE moves to
`(Matthew, 2, 1)`. -/
theorem next_verse_follows_spec_witness :
    navigate_verse testStore (Identifier.str "Matthew") 1 2 "next_verse" =
      Except.ok ("Matthew", 2, 1) := by
  have h := next_verse_follows_spec testStore (Identifier.str "Matthew") 1 2 1
    "Mt" "Matt" (by decide)
  rw [h]
  decide

/-- C4: for every address whose book resolves, START_OF_CHAPTER follows
the specified rewind rule: from a verse other than 1 it moves to
`(book, chapter, 1)`; from verse 1 it moves to `(book, chapter-1, 1)`
when `chapter > 1`, else to `(previous book, last chapter of previous
book, 1)` when a previous book exists, else stays put. -/
theorem start_of_chapter_follows_spec (store : Store) (id : Identifier)
    (ch v n : Nat) (a k : String)
    (h : get_book_data id = some (PyVal.vInt n, a, k)) :
    navigate_verse store id ch v "start_of_chapter" =
      Except.ok (spec_start_of_chapter store (n - 1) ch v) := by
  obtain ⟨h1, h27⟩ := get_book_data_int_bounds id n a k h
  rw [navigate_verse_eq_core store id ch v n a k "start_of_chapter" h]
  have hbn : bookName n = (bk (n - 1)).fullName := by
    have := bookName_eq_fullName (n - 1) (by omega)
    rwa [Nat.sub_add_cancel h1] at this
  unfold navigate_core spec_start_of_chapter
  rw [hbn]
  simp only [String.reduceEq, if_true, if_false]
  split_ifs <;> rfl

/-- Witness for C4 at the concrete scenario of the specification:
`(John, 3, 1)` with START_OF_CHAPTER moves to `(John, 2, 1)`. -/
theorem start_of_chapter_follows_spec_witness :
    navigate_verse testStore (Identifier.str "John") 3 1 "start_of_chapter" =
      Except.ok ("John", 2, 1) := by
  have h := start_of_chapter_follows_spec testStore (Identifier.str "John") 3 1 4
    "Jn" "John" (by decide)
  rw [h]
  decide

/-- C6: contrary to the claim (and to the docstring of `navigate_verse`,
which advertises `current_book (str|int)`), an integer book identifier
always fails.  `NUMBER_TO_DATA[p]` puts the full-name string in slot 0,
so `book_num` is a string and the index loop comparing it against the
integer `book[0]` finds nothing, raising
`ValueError("Book not found in NEW_TESTAMENT: ...")` for every position
`1 ≤ p ≤ 27`, every chapter, verse, mode and store. -/
theorem integer_book_identifier_fails (store : Store) (p ch v : Nat) (mode : String)
    (h1 : 1 ≤ p) (h27 : p ≤ 27) :
    navigate_verse store (Identifier.num p) ch v mode =
      Except.error "Book not found in NEW_TESTAMENT" := by
  have hsome : ∀ q : Nat, 1 ≤ q → q ≤ 27 → (NUMBER_TO_DATA q).isSome := by decide
  have := hsome p h1 h27
  obtain ⟨d, hd⟩ := Option.isSome_iff_exists.1 this
  simp only [navigate_verse, get_book_data, hd, Option.map_some']

/-- Witness for C6: book given as the integer `1` (Matthew), NEXT_VERSE. -/
theorem integer_book_identifier_fails_witness :
    navigate_verse testStore (Identifier.num 1) 1 1 "next_verse" =
      Except.error "Book not found in NEW_TESTAMENT" :=
  integer_book_identifier_fails testStore 1 1 1 "next_verse" (by decide) (by decide)

/-- C5: navigation is a no-op at both extremes of the collection and
never leaves the registry's bounds.  PREVIOUS_VERSE at the first verse
of the first book and NEXT_VERSE at the last verse of the last book
return the input unchanged (its book in canonical full-name form), and
any successful navigation result names a registry book, whose position
lies in `[1, 27]`. -/
theorem navigation_clamps_at_extremes :
    (∀ store : Store,
      navigate_verse store (Identifier.str "Matthew") 1 1 "previous_verse" =
        Except.ok ("Matthew", 1, 1)) ∧
    (∀ (store : Store) (ch v : Nat),
      ch = get_max_chapter store 27 → v = get_max_verse store 27 ch →
      navigate_verse store (Identifier.str "Revelation") ch v "next_verse" =
        Except.ok ("Revelation", ch, v)) ∧
    (∀ (store : Store) (id : Identifier) (ch v : Nat) (mode : String)
        (r : String × Nat × Nat),
      navigate_verse store id ch v mode = Except.ok r →
      ∃ b, b ∈ NEW_TESTAMENT ∧ r.1 = b.fullName ∧ 1 ≤ b.position ∧ b.position ≤ 27) := by
  refine ⟨?_, ?_, ?_⟩
  · intro store
    have h0 : bk 0 = ⟨1, "Matthew", "Mt", "The Gospel According to Matthew", "Matt"⟩ := by
      decide
    have h := navigate_verse_fullName store 0 1 1 "previous_verse" (by decide)
    rw [h0] at h
    rw [h]
    rfl
  · intro store ch v hch hv
    have h26 : bk 26 = ⟨27, "Revelation", "Rev", "The Revelation to John", "Rev"⟩ := by
      decide
    have h := navigate_verse_fullName store 26 ch v "next_verse" (by decide)
    rw [h26] at h
    have he : (26 : Nat) + 1 = 27 := rfl
    rw [he] at h
    rw [h]
    subst hch
    subst hv
    unfold navigate_core
    simp only [NEW_TESTAMENT_length, String.reduceEq, if_true, if_false]
    rw [if_neg (by omega), if_neg (by omega), if_neg (by omega)]
    have hb : bookName 27 = "Revelation" := by decide
    rw [hb]
  · intro store id ch v mode r h
    unfold navigate_verse at h
    cases hbd : get_book_data id with
    | none => rw [hbd] at h; exact Except.noConfusion h
    | some bd =>
      obtain ⟨p, a, k⟩ := bd
      rw [hbd] at h
      cases p with
      | vStr s => exact Except.noConfusion h
      | vInt n =>
        obtain ⟨hn1, hn27⟩ := get_book_data_int_bounds id n a k hbd
        dsimp only at h
        rw [find_book_idx_eq n hn1 hn27] at h
        obtain ⟨b, hb, hname⟩ := navigate_core_ok_book store n (n - 1) ch v mode r
          hn1 hn27 (by omega) h
        exact ⟨b, hb, hname, position_bounds b hb⟩

/-- Witness for C5: the two clamp conjuncts at the concrete store. -/
theorem navigation_clamps_at_extremes_witness :
    navigate_verse testStore (Identifier.str "Matthew") 1 1 "previous_verse" =
        Except.ok ("Matthew", 1, 1) ∧
    navigate_verse testStore (Identifier.str "Revelation") 1 2 "next_verse" =
        Except.ok ("Revelation", 1, 2) :=
  ⟨navigation_clamps_at_extremes.1 testStore,
   navigation_clamps_at_extremes.2.1 testStore 1 2 (by decide) (by decide)⟩

/-- C9: every successful `navigate_verse` result carries the book as a
canonical full name from the registry, regardless of how the input book
was spelled — in particular the clamp branch from `(Mt, 1, 1)` or
`(Matt, 1, 1)` answers `("Matthew", 1, 1)`, normalizing the
abbreviation instead of echoing it. -/
theorem result_book_is_canonical_full_name :
    (∀ (store : Store) (id : Identifier) (ch v : Nat) (mode : String)
        (r : String × Nat × Nat),
      navigate_verse store id ch v mode = Except.ok r →
      ∃ b, b ∈ NEW_TESTAMENT ∧ r.1 = b.fullName) ∧
    (∀ store : Store,
      navigate_verse store (Identifier.str "Mt") 1 1 "previous_verse" =
        Except.ok ("Matthew", 1, 1)) ∧
    (∀ store : Store,
      navigate_verse store (Identifier.str "Matt") 1 1 "previous_verse" =
        Except.ok ("Matthew", 1, 1)) := by
  refine ⟨?_, ?_, ?_⟩
  · intro store id ch v mode r h
    unfold navigate_verse at h
    cases hbd : get_book_data id with
    | none => rw [hbd] at h; exact Except.noConfusion h
    | some bd =>
      obtain ⟨p, a, k⟩ := bd
      rw [hbd] at h
      cases p with
      | vStr s => exact Except.noConfusion h
      | vInt n =>
        obtain ⟨hn1, hn27⟩ := get_book_data_int_bounds id n a k hbd
        dsimp only at h
        rw [find_book_idx_eq n hn1 hn27] at h
        exact navigate_core_ok_book store n (n - 1) ch v mode r hn1 hn27 (by omega) h
  · intro store
    have h : get_book_data (Identifier.str "Mt") =
        some (PyVal.vInt 1, "Matthew", "Matt") := by decide
    rw [navigate_verse_eq_core store (Identifier.str "Mt") 1 1 1 "Matthew" "Matt"
      "previous_verse" h]
    rfl
  · intro store
    have h : get_book_data (Identifier.str "Matt") =
        some (PyVal.vInt 1, "Matthew", "Mt") := by decide
    rw [navigate_verse_eq_core store (Identifier.str "Matt") 1 1 1 "Matthew" "Mt"
      "previous_verse" h]
    rfl

/-- Witness for C9: the first conjunct applied at a concrete navigation. -/
theorem result_book_is_canonical_full_name_witness :
    ∃ b, b ∈ NEW_TESTAMENT ∧ (("Matthew", 1, 2) : String × Nat × Nat).1 = b.fullName :=
  result_book_is_canonical_full_name.1 testStore (Identifier.str "Matthew") 1 1
    "next_verse" ("Matthew", 1, 2) (by decide)

/-- If a fold by max over a nonempty list starts at 0, its value is in
the list (0 itself is a member when every element is 0). -/
theorem foldl_max_zero_mem (l : List Nat) (hne : l ≠ []) : l.foldl max 0 ∈ l := by
  rcases foldl_max_eq_init_or_mem l 0 with h | h
  · cases l with
    | nil => exact absurd rfl hne
    | cons x t =>
      have hx : x ≤ (x :: t).foldl max 0 :=
        foldl_max_le_of_mem (x :: t) 0 x (List.mem_cons_self x t)
      rw [h] at hx
      have hx0 : x = 0 := Nat.le_zero.1 hx
      rw [h, ← hx0]
      exact List.mem_cons_self x t
  · exact h

/-- C8: `get_max_chapter` returns the largest chapter number among the
book's records and 0 when the book has none; `get_max_verse` returns the
largest verse number among the records of the given chapter and 0 when
that chapter has none; both are invariant under permutation of the
store's iteration order. -/
theorem max_extent_scan_correct (store store2 : Store) (n ch : Nat) :
    (∀ r ∈ store n, r.1 ≤ get_max_chapter store n) ∧
    (store n = [] → get_max_chapter store n = 0) ∧
    (store n ≠ [] → get_max_chapter store n ∈ (store n).map Prod.fst) ∧
    (∀ r ∈ store n, r.1 = ch → r.2 ≤ get_max_verse store n ch) ∧
    ((store n).filter (fun r => r.1 == ch) = [] → get_max_verse store n ch = 0) ∧
    ((store n).filter (fun r => r.1 == ch) ≠ [] →
      get_max_verse store n ch ∈ ((store n).filter (fun r => r.1 == ch)).map Prod.snd) ∧
    ((store n).Perm (store2 n) →
      get_max_chapter store n = get_max_chapter store2 n ∧
      get_max_verse store n ch = get_max_verse store2 n ch) := by
  refine ⟨?_, ?_, ?_, ?_, ?_, ?_, ?_⟩
  · intro r hr
    rw [get_max_chapter_eq_fold]
    exact foldl_max_le_of_mem _ 0 r.1 (List.mem_map_of_mem Prod.fst hr)
  · intro h
    rw [get_max_chapter_eq_fold, h]
    rfl
  · intro hne
    rw [get_max_chapter_eq_fold]
    refine foldl_max_zero_mem _ ?_
    simpa using hne
  · intro r hr hch
    rw [get_max_verse_eq_fold]
    refine foldl_max_le_of_mem _ 0 r.2 (List.mem_map_of_mem Prod.snd ?_)
    exact List.mem_filter.2 ⟨hr, by simp [hch]⟩
  · intro h
    rw [get_max_verse_eq_fold, h]
    rfl
  · intro hne
    rw [get_max_verse_eq_fold]
    refine foldl_max_zero_mem _ ?_
    simpa using hne
  · intro hp
    constructor
    · rw [get_max_chapter_eq_fold, get_max_chapter_eq_fold]
      exact foldl_max_perm (hp.map Prod.fst) 0
    · rw [get_max_verse_eq_fold, get_max_verse_eq_fold]
      exact foldl_max_perm ((hp.filter (fun r => r.1 == ch)).map Prod.snd) 0

/-- Witness for C8: the empty-book and attained-maximum conjuncts at
concrete stores. -/
theorem max_extent_scan_correct_witness :
    get_max_chapter emptyStore 1 = 0 ∧
    get_max_chapter testStore 1 ∈ (testStore 1).map Prod.fst :=
  ⟨(max_extent_scan_correct emptyStore emptyStore 1 1).2.1 rfl,
   (max_extent_scan_correct testStore testStore 1 1).2.2.1 (by decide)⟩

/-- C2 counterexample: in `testStore` the address `(Revelation, 1, 2)`
is valid (chapter 1 is the maximum chapter of Revelation, verse 2 its
maximum verse) and is not the first verse of the collection, yet
NEXT_VERSE clamps there and PREVIOUS_VERSE then moves back one verse,
so the composite returns `(Revelation, 1, 1)`, not the input. -/
theorem next_prev_roundtrip_fails_at_last_verse :
    get_max_chapter testStore 27 = 1 ∧
    get_max_verse testStore 27 1 = 2 ∧
    ((navigate_verse testStore (Identifier.str "Revelation") 1 2 "next_verse").bind
      (fun r => navigate_verse testStore (Identifier.str r.1) r.2.1 r.2.2
        "previous_verse") = Except.ok ("Revelation", 1, 1)) ∧
    (Except.ok (("Revelation", 1, 1) : String × Nat × Nat) :
        Except String (String × Nat × Nat)) ≠
      Except.ok ("Revelation", 1, 2) := by
  exact ⟨by decide, by decide, by decide, by decide⟩

/-- C2 (amended: the excluded endpoint must be the last verse of the
collection, not the first): for every valid address `A` that is not the
very last verse of the collection,
`navigate(navigate(A, NEXT_VERSE), PREVIOUS_VERSE) = A`. -/
theorem next_prev_roundtrip (store : Store) (i ch v : Nat) (hi : i < 27)
    (hch1 : 1 ≤ ch) (hch2 : ch ≤ get_max_chapter store (i + 1))
    (hv1 : 1 ≤ v) (hv2 : v ≤ get_max_verse store (i + 1) ch)
    (hlast : ¬(i = 26 ∧ ch = get_max_chapter store 27 ∧
      v = get_max_verse store 27 ch)) :
    (navigate_verse store (Identifier.str (bk i).fullName) ch v "next_verse").bind
      (fun r => navigate_verse store (Identifier.str r.1) r.2.1 r.2.2
        "previous_verse") =
      Except.ok ((bk i).fullName, ch, v) := by
  have hbn := bookName_eq_fullName i hi
  rw [navigate_verse_fullName store i ch v "next_verse" hi]
  unfold navigate_core
  simp only [NEW_TESTAMENT_length, String.reduceEq, if_true, if_false]
  by_cases h1 : v < get_max_verse store (i + 1) ch
  · rw [if_pos h1]
    simp only [Except.bind, hbn]
    rw [navigate_verse_fullName store i ch (v + 1) "previous_verse" hi]
    unfold navigate_core
    simp only [String.reduceEq, if_true, if_false]
    rw [if_pos (by omega : v + 1 > 1), hbn, Nat.add_sub_cancel]
  · rw [if_neg h1]
    have hveq : v = get_max_verse store (i + 1) ch := by omega
    by_cases h2 : ch < get_max_chapter store (i + 1)
    · rw [if_pos h2]
      simp only [Except.bind, hbn]
      rw [navigate_verse_fullName store i (ch + 1) 1 "previous_verse" hi]
      unfold navigate_core
      simp only [String.reduceEq, if_true, if_false]
      rw [if_neg (by omega : ¬(1 > 1)), if_pos (by omega : ch + 1 > 1), hbn,
        Nat.add_sub_cancel, ← hveq]
    · rw [if_neg h2]
      by_cases h3 : i < 26
      · rw [if_pos (by omega : i < 27 - 1)]
        simp only [Except.bind]
        rw [navigate_verse_fullName store (i + 1) 1 1 "previous_verse" (by omega)]
        unfold navigate_core
        simp only [String.reduceEq, if_true, if_false]
        rw [if_neg (by omega : ¬(1 > 1)), if_neg (by omega : ¬(1 > 1)),
          if_pos (by omega : i + 1 > 0), Nat.add_sub_cancel,
          bk_position i hi, ← (by omega : ch = get_max_chapter store (i + 1)),
          ← hveq]
      · exfalso
        apply hlast
        have hi26 : i = 26 := by omega
        subst hi26
        have hce : ch = get_max_chapter store (26 + 1) := by omega
        exact ⟨rfl, hce, hveq⟩

/-- Witness for C2 (amended): `(Matthew, 1, 2)` round-trips through
NEXT_VERSE then PREVIOUS_VERSE in the concrete store. -/
theorem next_prev_roundtrip_witness :
    (navigate_verse testStore (Identifier.str "Matthew") 1 2 "next_verse").bind
      (fun r => navigate_verse testStore (Identifier.str r.1) r.2.1 r.2.2
        "previous_verse") =
      Except.ok ("Matthew", 1, 2) := by
  have h := next_prev_roundtrip testStore 0 1 2 (by decide) (by decide) (by decide)
    (by decide) (by decide) (by decide)
  exact h

/-- C3 counterexample: in `testStore` the address `(Matthew, 1, 1)` is
valid and is not the last verse of the collection (which is
`(Revelation, 1, 2)`), yet PREVIOUS_VERSE clamps there and NEXT_VERSE
then advances, so the composite returns `(Matthew, 1, 2)`, not the
input. -/
theorem prev_next_roundtrip_fails_at_first_verse :
    get_max_chapter testStore 1 = 2 ∧
    get_max_verse testStore 1 1 = 2 ∧
    get_max_chapter testStore 27 = 1 ∧
    get_max_verse testStore 27 1 = 2 ∧
    ((navigate_verse testStore (Identifier.str "Matthew") 1 1 "previous_verse").bind
      (fun r => navigate_verse testStore (Identifier.str r.1) r.2.1 r.2.2
        "next_verse") = Except.ok ("Matthew", 1, 2)) ∧
    (Except.ok (("Matthew", 1, 2) : String × Nat × Nat) :
        Except String (String × Nat × Nat)) ≠
      Except.ok ("Matthew", 1, 1) := by
  exact ⟨by decide, by decide, by decide, by decide, by decide, by decide⟩

/-- C3 (amended: the excluded endpoint must be the first verse of the
collection, not the last): for every valid address `A` that is not the
very first verse of the collection,
`navigate(navigate(A, PREVIOUS_VERSE), NEXT_VERSE) = A`. -/
theorem prev_next_roundtrip (store : Store) (i ch v : Nat) (hi : i < 27)
    (hch1 : 1 ≤ ch) (hch2 : ch ≤ get_max_chapter store (i + 1))
    (hv1 : 1 ≤ v) (hv2 : v ≤ get_max_verse store (i + 1) ch)
    (hfirst : ¬(i = 0 ∧ ch = 1 ∧ v = 1)) :
    (navigate_verse store (Identifier.str (bk i).fullName) ch v "previous_verse").bind
      (fun r => navigate_verse store (Identifier.str r.1) r.2.1 r.2.2
        "next_verse") =
      Except.ok ((bk i).fullName, ch, v) := by
  have hbn := bookName_eq_fullName i hi
  rw [navigate_verse_fullName store i ch v "previous_verse" hi]
  unfold navigate_core
  simp only [NEW_TESTAMENT_length, String.reduceEq, if_true, if_false]
  by_cases h1 : v > 1
  · rw [if_pos h1]
    simp only [Except.bind, hbn]
    rw [navigate_verse_fullName store i ch (v - 1) "next_verse" hi]
    unfold navigate_core
    simp only [String.reduceEq, if_true, if_false]
    rw [if_pos (by omega : v - 1 < get_max_verse store (i + 1) ch), hbn]
    have hvv : v - 1 + 1 = v := by omega
    rw [hvv]
  · rw [if_neg h1]
    have hv : v = 1 := by omega
    by_cases h2 : ch > 1
    · rw [if_pos h2]
      simp only [Except.bind, hbn]
      rw [navigate_verse_fullName store i (ch - 1)
        (get_max_verse store (i + 1) (ch - 1)) "next_verse" hi]
      unfold navigate_core
      simp only [String.reduceEq, if_true, if_false]
      rw [if_neg (by omega :
          ¬get_max_verse store (i + 1) (ch - 1) <
            get_max_verse store (i + 1) (ch - 1)),
        if_pos (by omega : ch - 1 < get_max_chapter store (i + 1)), hbn]
      have hcc : ch - 1 + 1 = ch := by omega
      rw [hcc, hv]
    · rw [if_neg h2]
      have hc : ch = 1 := by omega
      by_cases h3 : i > 0
      · rw [if_pos h3]
        simp only [Except.bind]
        have hp : (bk (i - 1)).position = i := by
          have := bk_position (i - 1) (by omega)
          omega
        rw [hp]
        rw [navigate_verse_fullName store (i - 1)
          (get_max_chapter store i)
          (get_max_verse store i (get_max_chapter store i)) "next_verse" (by omega)]
        have hii : i - 1 + 1 = i := by omega
        rw [hii]
        unfold navigate_core
        simp only [NEW_TESTAMENT_length, String.reduceEq, if_true, if_false]
        rw [if_neg (by omega :
            ¬get_max_verse store i (get_max_chapter store i) <
              get_max_verse store i (get_max_chapter store i)),
          if_neg (by omega :
            ¬get_max_chapter store i < get_max_chapter store i),
          if_pos (by omega : i - 1 < 27 - 1), hii, hc, hv]
      · exfalso
        exact hfirst ⟨by omega, hc, hv⟩

/-- Witness for C3 (amended): `(Matthew, 2, 1)` round-trips through
PREVIOUS_VERSE then NEXT_VERSE in the concrete store. -/
theorem prev_next_roundtrip_witness :
    (navigate_verse testStore (Identifier.str "Matthew") 2 1 "previous_verse").bind
      (fun r => navigate_verse testStore (Identifier.str r.1) r.2.1 r.2.2
        "next_verse") =
      Except.ok ("Matthew", 2, 1) := by
  have h := prev_next_roundtrip testStore 0 2 1 (by decide) (by decide) (by decide)
    (by decide) (by decide) (by decide)
  exact h

/-- C7 counterexample: with every extent scan returning 0 (book with no
records), NEXT_VERSE from the stored address `(Matthew, 1, 5)` is not a
no-op: it cascades into movement to `(Mark, 1, 1)`. -/
theorem empty_extent_not_noop :
    get_max_chapter emptyStore 1 = 0 ∧
    get_max_verse emptyStore 1 1 = 0 ∧
    navigate_verse emptyStore (Identifier.str "Matthew") 1 5 "next_verse" =
      Except.ok ("Mark", 1, 1) ∧
    (Except.ok (("Mark", 1, 1) : String × Nat × Nat) :
        Except String (String × Nat × Nat)) ≠
      Except.ok ("Matthew", 1, 5) := by
  exact ⟨by decide, by decide, by decide, by decide⟩

/-- C7 (amended): when the current book's extent scan is empty
(`max_chapter = 0` and `max_verse = 0` for the current chapter),
navigation never fails, but it stays put only at the last book:
NEXT_VERSE and START_OF_NEXT_CHAPTER move to the next canonical book's
`(1, 1)` whenever one exists and return the input unchanged only for the
last book, while PREVIOUS_VERSE and START_OF_CHAPTER succeed following
their ordinary rules, which do not consult the missing extent. -/
theorem empty_extent_behavior (store : Store) (id : Identifier) (ch v n : Nat)
    (a k : String) (h : get_book_data id = some (PyVal.vInt n, a, k))
    (hmc : get_max_chapter store n = 0) (hmv : get_max_verse store n ch = 0) :
    (navigate_verse store id ch v "next_verse" =
      if n - 1 < 26 then Except.ok ((bk n).fullName, 1, 1)
      else Except.ok (bookName n, ch, v)) ∧
    (navigate_verse store id ch v "start_of_next_chapter" =
      if n - 1 < 26 then Except.ok ((bk n).fullName, 1, 1)
      else Except.ok (bookName n, ch, v)) ∧
    (∃ r, navigate_verse store id ch v "previous_verse" = Except.ok r) ∧
    (∃ r, navigate_verse store id ch v "start_of_chapter" = Except.ok r) := by
  refine ⟨?_, ?_, ?_, ?_⟩
  · rw [navigate_verse_eq_core store id ch v n a k "next_verse" h]
    unfold navigate_core
    simp only [NEW_TESTAMENT_length, String.reduceEq, if_true, if_false]
    rw [hmv, hmc, if_neg (by omega : ¬v < 0), if_neg (by omega : ¬ch < 0)]
    by_cases h3 : n - 1 < 26
    · rw [if_pos (by omega : n - 1 < 27 - 1), if_pos h3]
      have hn : n - 1 + 1 = n := by
        obtain ⟨h1, _⟩ := get_book_data_int_bounds id n a k h
        omega
      rw [hn]
    · rw [if_neg (by omega : ¬n - 1 < 27 - 1), if_neg h3]
  · rw [navigate_verse_eq_core store id ch v n a k "start_of_next_chapter" h]
    unfold navigate_core
    simp only [NEW_TESTAMENT_length, String.reduceEq, if_true, if_false]
    rw [hmc, if_neg (by omega : ¬ch < 0)]
    by_cases h3 : n - 1 < 26
    · rw [if_pos (by omega : n - 1 < 27 - 1), if_pos h3]
      have hn : n - 1 + 1 = n := by
        obtain ⟨h1, _⟩ := get_book_data_int_bounds id n a k h
        omega
      rw [hn]
    · rw [if_neg (by omega : ¬n - 1 < 27 - 1), if_neg h3]
  · rw [navigate_verse_eq_core store id ch v n a k "previous_verse" h]
    unfold navigate_core
    simp only [String.reduceEq, if_true, if_false]
    split_ifs <;> exact ⟨_, rfl⟩
  · rw [navigate_verse_eq_core store id ch v n a k "start_of_chapter" h]
    unfold navigate_core
    simp only [String.reduceEq, if_true, if_false]
    split_ifs <;> exact ⟨_, rfl⟩

/-- Witness for C7 (amended): the first conjunct at the empty store,
book Matthew, evaluated to the concrete movement to Mark. -/
theorem empty_extent_behavior_witness :
    navigate_verse emptyStore (Identifier.str "Matthew") 1 5 "next_verse" =
      Except.ok ("Mark", 1, 1) := by
  have h := (empty_extent_behavior emptyStore (Identifier.str "Matthew") 1 5 1
    "Mt" "Matt" (by decide) (by decide) (by decide)).1
  rw [h]
  decide

/-- Unfolding step of `dict_set` when the head holds the key. -/
theorem dict_set_cons_pos {α : Type} (p : String × α) (t : List (String × α))
    (k : String) (v : α) (h : (p.1 == k) = true) :
    dict_set (p :: t) k v = (k, v) :: t := by
  simp only [dict_set]
  rw [if_pos h]

/-- Unfolding step of `dict_set` when the head does not hold the key. -/
theorem dict_set_cons_neg {α : Type} (p : String × α) (t : List (String × α))
    (k : String) (v : α) (h : (p.1 == k) = false) :
    dict_set (p :: t) k v = p :: dict_set t k v := by
  simp only [dict_set]
  rw [if_neg (by simp [h])]

/-- Writing a key then reading it back gives the written value. -/
theorem dict_get_set_same {α : Type} (m : List (String × α)) (k : String) (v : α) :
    dict_get (dict_set m k v) k = some v := by
  induction m with
  | nil => simp [dict_set, dict_get]
  | cons p t ih =>
    cases hpk : (p.1 == k) with
    | true =>
      rw [dict_set_cons_pos p t k v hpk]
      unfold dict_get
      rw [List.find?_cons_of_pos t (by simp)]
      rfl
    | false =>
      rw [dict_set_cons_neg p t k v hpk]
      unfold dict_get
      rw [List.find?_cons_of_neg (dict_set t k v) (by simp [hpk])]
      exact ih

/-- Writing one key leaves every other key's value unchanged. -/
theorem dict_get_set_other {α : Type} (m : List (String × α)) (k kx : String)
    (v : α) (hne : kx ≠ k) : dict_get (dict_set m k v) kx = dict_get m kx := by
  have hkk : (k == kx) = false := by
    simp only [beq_eq_false_iff_ne, ne_eq]
    exact fun hs => hne hs.symm
  induction m with
  | nil =>
    simp only [dict_set]
    unfold dict_get
    rw [List.find?_cons_of_neg [] (by simp [hkk])]
  | cons p t ih =>
    cases hpk : (p.1 == k) with
    | true =>
      rw [dict_set_cons_pos p t k v hpk]
      have hp : p.1 = k := by simpa using hpk
      unfold dict_get
      rw [List.find?_cons_of_neg t (by simp [hkk]),
        List.find?_cons_of_neg t (by simp [hp, hkk])]
    | false =>
      rw [dict_set_cons_neg p t k v hpk]
      cases hx : (p.1 == kx) with
      | true =>
        unfold dict_get
        rw [List.find?_cons_of_pos (dict_set t k v) (by simp [hx]),
          List.find?_cons_of_pos t (by simp [hx])]
      | false =>
        unfold dict_get
        rw [List.find?_cons_of_neg (dict_set t k v) (by simp [hx]),
          List.find?_cons_of_neg t (by simp [hx])]
        exact ih

/-- C10: `save_user_translation` writes exactly one entry: reading the
written `(book, chapter, verse)` back gives the new text, and every
other `(book, chapter, verse)` key reads exactly as before the call
(missing book/chapter levels are created on demand; nothing is
removed). -/
theorem save_user_translation_frame (t : TransMap) (book : String)
    (ch vs : Nat) (text : String) :
    load_user_translation (save_user_translation t book ch vs text) book ch vs =
      some text ∧
    (∀ b c v : String, ¬(b = book ∧ c = toString ch ∧ v = toString vs) →
      stored_translation (save_user_translation t book ch vs text) b c v =
        stored_translation t b c v) := by
  constructor
  · simp only [save_user_translation, load_user_translation]
    rw [dict_get_set_same]
    simp only [Option.getD_some]
    rw [dict_get_set_same]
    simp only [Option.getD_some]
    rw [dict_get_set_same]
  · intro b c v hneq
    simp only [save_user_translation, stored_translation]
    by_cases hb : b = book
    · subst hb
      rw [dict_get_set_same]
      simp only [Option.getD_some]
      by_cases hc : c = toString ch
      · subst hc
        rw [dict_get_set_same]
        simp only [Option.getD_some]
        have hv : v ≠ toString vs := by
          intro hv
          exact hneq ⟨rfl, rfl, hv⟩
        rw [dict_get_set_other _ _ _ _ hv]
      · rw [dict_get_set_other _ _ _ _ hc]
    · rw [dict_get_set_other _ _ _ _ hb]

/-- Witness for C10 at a concrete store, key and unrelated key. -/
theorem save_user_translation_frame_witness :
    load_user_translation (save_user_translation [] "John" 3 16 "classic verse")
      "John" 3 16 = some "classic verse" ∧
    stored_translation (save_user_translation [] "John" 3 16 "classic verse")
      "John" "3" "17" = stored_translation [] "John" "3" "17" :=
  ⟨(save_user_translation_frame [] "John" 3 16 "classic verse").1,
   (save_user_translation_frame [] "John" 3 16 "classic verse").2 "John" "3" "17"
     (by decide)⟩
